import Mathlib

/-!
# ARC-Inventory: barcode index, validator, write-back and scan handler

A shallow embedding of `src/inventory.go`.

* Go strings are modelled by `String`; `len` is the byte length.
* `map[string]string` is modelled by an association list with unique keys
  (`Index`), with Go's lookup (`m[k]`, the zero value `""` for an absent key)
  and assignment (`m[k] = v`).
* `strconv.Atoi` / `strconv.Itoa` follow the Go standard library for a
  64-bit `int` (fast path for short inputs, `ParseInt`/`ParseUint` with
  clamping on a range error otherwise).
* A Go `error` is `Option String` (`none` is `nil`, `some msg` is
  `errors.New(msg)`).
* A panic or `log.Fatalf` aborts a function: such functions return `Except Abort`.
* The Sheets service is a parameter (`Service`); the calls the program issues and the
  bytes it writes to the HTTP response are recorded in a `World`.
* `fmt.Fprintf(response, form)` is called with the form as its format and no operands;
  `Sprintf0` follows `pp.doPrintf` of the Go standard library for that case.
-/

namespace Inventory

/-! ## Go runtime and `strconv` -/

/-- Go `len(s)` for a string: its number of bytes. -/
def len (s : String) : Nat := s.utf8ByteSize

/-- The two error kinds `strconv` reports (`ErrSyntax`, `ErrRange`). -/
inductive NumError where
  | ErrSyntax
  | ErrRange
  deriving DecidableEq, Repr

/-- Largest value of a 64-bit Go `int`. -/
def maxInt : Int := 9223372036854775807

/-- Smallest value of a 64-bit Go `int`. -/
def minInt : Int := -9223372036854775808

/-- Largest `uint64`. -/
def maxUint64 : Nat := 18446744073709551615

/-- The byte test `'0' <= c && c <= '9'`. -/
def isDigit (c : Char) : Bool := decide (48 ≤ c.toNat) && decide (c.toNat ≤ 57)

/-- The digit value `c - '0'`. -/
def digitVal (c : Char) : Nat := c.toNat - 48

/-- Digit loop of the fast path of `strconv.Atoi`:
`ch -= '0'; if ch > 9 { return 0, syntaxError }; n = n*10 + int(ch)`.
`none` is the syntax error. -/
def atoiLoop : List Char → Nat → Option Nat
  | [], n => some n
  | c :: cs, n => if isDigit c then atoiLoop cs (n * 10 + digitVal c) else none

/-- Digit loop of `strconv.ParseUint(s, 10, 0)` on a 64-bit platform.  A byte that is
not a decimal digit is a syntax error with value 0 (a letter has digit value
at least 10, which is not below the base; `_` is only accepted for base 0).  Overflow
returns at once with `maxVal` and `ErrRange`, before the remaining bytes are looked at. -/
def parseUintLoop : List Char → Nat → Nat × Option NumError
  | [], n => (n, none)
  | c :: cs, n =>
    if isDigit c then
      if maxUint64 / 10 + 1 ≤ n then (maxUint64, some NumError.ErrRange)
      else
        let n10 := n * 10
        let n1 := (n10 + digitVal c) % 18446744073709551616
        if n1 < n10 ∨ maxUint64 < n1 then (maxUint64, some NumError.ErrRange)
        else parseUintLoop cs n1
    else (0, some NumError.ErrSyntax)

/-- Go `strconv.ParseUint(s, 10, 0)`. -/
def ParseUint (s : List Char) : Nat × Option NumError :=
  match s with
  | [] => (0, some NumError.ErrSyntax)
  | _ :: _ => parseUintLoop s 0

/-- Go `strconv.ParseInt(s, 10, 0)`: sign, `ParseUint`, then the range check against
`cutoff = 1 << 63`; a range error returns the nearest representable value. -/
def ParseInt (s : List Char) : Int × Option NumError :=
  match s with
  | [] => (0, some NumError.ErrSyntax)
  | c :: cs =>
    let neg : Bool := c == '-'
    let body := if c == '+' || c == '-' then cs else c :: cs
    let r := ParseUint body
    if r.2 = some NumError.ErrSyntax then (0, some NumError.ErrSyntax)
    else if !neg && decide (9223372036854775808 ≤ r.1) then
      (9223372036854775807, some NumError.ErrRange)
    else if neg && decide (9223372036854775808 < r.1) then
      (-9223372036854775808, some NumError.ErrRange)
    else (if neg then -(r.1 : Int) else (r.1 : Int), none)

/-- Go `strconv.Atoi(s)` on a 64-bit platform: the returned value and the error.
Inputs of 1 to 18 bytes take the fast path, all others go through `ParseInt`. -/
def Atoi (s : String) : Int × Option NumError :=
  if 0 < len s ∧ len s < 19 then
    match s.data with
    | [] => (0, some NumError.ErrSyntax)
    | c :: cs =>
      let signed : Bool := c == '-' || c == '+'
      let body := if signed then cs else c :: cs
      if signed && body.isEmpty then (0, some NumError.ErrSyntax)
      else
        match atoiLoop body 0 with
        | none => (0, some NumError.ErrSyntax)
        | some n => (if c == '-' then -(n : Int) else (n : Int), none)
  else ParseInt s.data

/-- The decimal digit character of `d < 10`. -/
def digitChar (d : Nat) : Char := Char.ofNat (48 + d)

/-- Decimal digits of `u`, most significant first, pushed in front of `acc`
(`strconv.formatBits` for base 10).  The first argument bounds the number of digits. -/
def formatBits : Nat → Nat → List Char → List Char
  | 0, _, acc => acc
  | fuel + 1, u, acc =>
    if u < 10 then digitChar u :: acc
    else formatBits fuel (u / 10) (digitChar (u % 10) :: acc)

/-- Go `strconv.Itoa(i)`: the decimal text of `i`. -/
def Itoa (i : Int) : String :=
  if i < 0 then String.mk ('-' :: formatBits (i.natAbs + 1) i.natAbs [])
  else String.mk (formatBits (i.natAbs + 1) i.natAbs [])

/-! ## The barcode index (`var BARCODES = make(map[string]string)`) -/

/-- A Go `map[string]string`: key/value pairs, each key at most once. -/
abbrev Index := List (String × String)

/-- The comma-ok lookup `v, ok := m[k]`. -/
def mapLookup : Index → String → Option String
  | [], _ => none
  | (k, v) :: rest, key => if k = key then some v else mapLookup rest key

/-- The plain lookup `m[k]`: the zero value `""` when the key is absent. -/
def mapIndex (m : Index) (key : String) : String :=
  match mapLookup m key with
  | some v => v
  | none => ""

/-- The assignment `m[k] = v`: overwrite the entry of `k`, or add one. -/
def mapAssign : Index → String → String → Index
  | [], key, val => [(key, val)]
  | (k, v) :: rest, key, val =>
    if k = key then (k, val) :: rest else (k, v) :: mapAssign rest key val

/-- Go `len(m)`. -/
def mapLen (m : Index) : Nat := m.length

/-- Searches through the BARCODE map to find the cell associated with the barcode. -/
def findCellFromTable (BARCODES : Index) (barcodeID : String) : String :=
  mapIndex BARCODES barcodeID

/-! ## Validator -/

/-- Creates errors for invalid barcodes and names (`scanErrors`): the two checks run one
after the other, each overwriting `err` and `errNum`. -/
def scanErrors (BARCODES : Index) (barcode name : String) : Int × Option String :=
  let err : Option String := none
  let errNum : Int := -1
  let x := (Atoi (mapIndex BARCODES barcode)).1
  let s1 : Int × Option String :=
    if x < 1 then (0, some "invalid barcode: please scan again") else (errNum, err)
  let s2 : Int × Option String :=
    if len name < 1 then (1, some "invalid name: please re-enter name") else s1
  s2

/-! ## The spreadsheet service and the effects of the program -/

/-- What stops a Go function before it returns: a runtime panic or `log.Fatalf`. -/
inductive Abort where
  | panic (msg : String)
  | fatal (msg : String)
  deriving DecidableEq, Repr

deriving instance DecidableEq for Except

/-- The panic of reading a field through a nil pointer. -/
def nilDereference : Abort :=
  Abort.panic "runtime error: invalid memory address or nil pointer dereference"

/-- The panic of indexing an empty slice at 0. -/
def indexOutOfRange : Abort :=
  Abort.panic "runtime error: index out of range [0] with length 0"

/-- A `sheets.ValueRange`: the grid `Values`, rows of cells.  A cell is kept as the text
`fmt.Sprint` gives for it (the only way the program looks at a cell it has read, and the
cells it writes are strings). -/
structure ValueRange where
  Values : List (List String)
  deriving DecidableEq, Repr

/-- A call issued to the Sheets API. -/
inductive Call where
  | get (spreadsheetId range : String)
  | update (spreadsheetId range : String) (vr : ValueRange) (valueInputOption : String)
  deriving DecidableEq, Repr

/-- The remote service `*sheets.Service`: what `Values.Get(id, range).Do()` returns (a
`*ValueRange`, `none` for nil, and an error) and the error `Values.Update(...).Do()`
returns. -/
structure Service where
  get : String → String → Option ValueRange × Option String
  update : String → String → ValueRange → String → Option String

/-- The observable effects: the calls issued to the service, in order, and the bytes
written to the HTTP response.  Console output is not recorded. -/
structure World where
  calls : List Call
  response : String
  deriving DecidableEq, Repr

/-! ## Status resolver -/

/-- Checks the sheets for whether an object is available or not (`checkAvailable`):
reads `"C" + row` and returns `fmt.Sprint(checkedIn.Values[0][0])`; the error of the read is
dropped, so a nil result or an empty grid panics. -/
def checkAvailable (srv : Service) (BARCODES : Index) (spreadsheetId barcode : String)
    (w : World) : Except Abort (String × World) :=
  let readRange := "C" ++ findCellFromTable BARCODES barcode
  let w1 : World := { w with calls := w.calls ++ [Call.get spreadsheetId readRange] }
  match (srv.get spreadsheetId readRange).1 with
  | none => Except.error nilDereference
  | some checkedIn =>
    match checkedIn.Values with
    | [] => Except.error indexOutOfRange
    | row :: _ =>
      match row with
      | [] => Except.error indexOutOfRange
      | cell :: _ => Except.ok (cell, w1)

/-- Calls the checkAvailable function and then returns Checked In rather than Available
(`checkStatus`). -/
def checkStatus (srv : Service) (BARCODES : Index) (spreadsheetId barcode : String)
    (w : World) : Except Abort (String × World) :=
  match checkAvailable srv BARCODES spreadsheetId barcode w with
  | Except.error a => Except.error a
  | Except.ok (checkedAsStr, w1) =>
    if checkedAsStr = "Available" then Except.ok ("Checked In", w1)
    else Except.ok ("Checked Out", w1)

/-! ## Barcode index builder -/

/-- The labels `inequalStrings` compares with (`arr`). -/
def headerLabels : List String :=
  [ "Barcodes:", "Expansion Hubs:", "Control Hubs:", "Robot Batteries:", "Chargers:",
    "Controllers:", "Phones:", "Drills:", "Motors:", "Servos:" ]

/-- The loop of `inequalStrings`: `false` at the first label equal to the barcode. -/
def inequalLoop : List String → String → Bool
  | [], _ => true
  | s :: rest, barcode => if barcode = s then false else inequalLoop rest barcode

/-- Checks for lines containing these strings and skips those lines for creation of map
(`inequalStrings`). -/
def inequalStrings (barcode : String) : Bool := inequalLoop headerLabels barcode

/-- The loop of `createBarcodeList` over `checkedIn.Values`, from row `index` on:
`row[0]` panics on a row without cells. -/
def createBarcodeLoop : List (List String) → Nat → Index → Except Abort Index
  | [], _, BARCODES => Except.ok BARCODES
  | row :: rest, index, BARCODES =>
    match row with
    | [] => Except.error indexOutOfRange
    | barcodeStr :: _ =>
      if inequalStrings barcodeStr then
        createBarcodeLoop rest (index + 1)
          (mapAssign BARCODES barcodeStr (Itoa ((index : Int) + 1)))
      else createBarcodeLoop rest (index + 1) BARCODES

/-- Creates a map by scanning all barcodes in spreadsheet (`createBarcodeList`).  An error
of the read is only printed; the loop then reads `checkedIn.Values`, which panics when
`checkedIn` is nil. -/
def createBarcodeList (srv : Service) (spreadsheetId : String) (BARCODES : Index)
    (w : World) : Except Abort (Index × World) :=
  let writeRange := "H:H"
  let w1 : World := { w with calls := w.calls ++ [Call.get spreadsheetId writeRange] }
  match (srv.get spreadsheetId writeRange).1 with
  | none => Except.error nilDereference
  | some checkedIn =>
    match createBarcodeLoop checkedIn.Values 0 BARCODES with
    | Except.error a => Except.error a
    | Except.ok m => Except.ok (m, w1)

/-! ## Write-back -/

/-- Looks for a value based on barcode table and sets it to either Available or
Unavailable (`writeToSheet`).  The error of the update is only printed. -/
def writeToSheet (_srv : Service) (BARCODES : Index)
    (spreadsheetId barcode name team status : String) (w : World) : World :=
  let writeRange := findCellFromTable BARCODES barcode
  let values : List String := ["Unavailable"]
  let values : List String := if status = "checkIn" then ["Available"] else values
  let values := values ++ [name, team]
  let vr : ValueRange := { Values := [] ++ [values] }
  { w with calls := w.calls ++ [Call.update spreadsheetId ("C" ++ writeRange) vr "RAW"] }

/-! ## Form renderer -/

/-- The template of `buildForm` up to the first `%s`. -/
def formHead : String :=
  "\n\t\t\t<html>\n\t\t\t<head><title>ARC Inventory Client</title>\n\t\t\t<style>\n\t\t\tselect \x7b font-size: 24px; \x7d\n\t\t\tbutton \x7b font-size: 24px; \x7d\n\t\t\tinput[type=\x27text\x27] \x7b font-size: 24px; \x7d\n\t\t\ttextarea \x7b font-size: 20px; \x7d\n\t\t\t</style>\n\t\t\t</head>\n\t\t\t<body>\n\t\t\t<script type=\x22text/javascript\x22>\n            \tvar socket = new WebSocket(\x22ws://localhost:8080/ws\x22)\n\t\t\t\tsocket.onOpen = function() \x7b\n\t\t\t\t\tconsole.log(\x22Socket Connection Opened\x22)\n\t\t\t\t\x7d\n            \tsocket.onclose = function(evt) \x7b\n                \tconsole.log(\x22Socket Connection Closed\x22)\n            \t\x7d\n            \tsocket.onmessage = function(evt) \x7b\n   \n            \t\x7d\n        </script>\n\t\t\t<h1 style=\x22color:blue;background-color:lightgrey;text-align:center\x22>ARC Inventory Client</h1>\n\t\t\t<form action=\x22/scan\x22 method=\x22post\x22 id=\x22samplewebresults\x22>\n   \t\t        <fieldset>\n  \t    \t    <legend>Scan Processor</legend>\n \t\t\t\t<br>\n\t\t        <h2 style=\x22color:black;\x22>Scan into Barcode Box</h2>\n\t\t\t\t<h3 style=\x22color:red;\x22>Do NOT type in barcode box</h3>\n\t\t\t\t<input type=\x22text\x22 name=\x22barcode\x22 "

/-- The template between the `bc` and `us` verbs. -/
def formAfterBarcode : String :=
  " autocomplete=\x22off\x22><br>\n\t\t\t\t<input type=\x22text\x22 name=\x22user\x22 "

/-- The template between the `us` and `team` verbs. -/
def formAfterUser : String :=
  " autocomplete=\x22off\x22><br>\n\t\t\t\t<select name=\x22team\x22 "

/-- The template between the `team` and `status` verbs. -/
def formAfterTeam : String :=
  " ><br>\n\t\t\t\t<option value=\x22Crimson\x22> Crimson 12864</option>\n\t\t\t\t<option value=\x22Black\x22> Black 9686</option>\n\t\t\t\t</select>\n\t\t\t\t<select name=\x22status\x22 "

/-- The template between the `status` and `errmsg` verbs. -/
def formAfterStatus : String :=
  " ><br>\n\t\t\t\t<option value=\x22checkOut\x22> Check Out</option>\n\t\t\t\t<option value=\x22checkIn\x22> Check In</option>\n\t\t\t\t</select>\n\t\t\t\t<br>\n\t\t\t\t<button style=\x22color:blue;background-color:lightgrey\x22 type=\x22submit\x22 value=\x22submitButton\x22>  Submit  </button>\n    \t   \t    </fieldset>\n\t\t\t</form>\n\t\t\t<br>\n    \t\t<h2 style=\x22color:red;\x22>"

/-- The template between the `errmsg` and `results` verbs. -/
def formAfterError : String :=
  "</h2>\n    \t\t<h2 style=\x22color:blue;\x22>"

/-- The template after the last `%s`. -/
def formTail : String :=
  "</h2>\n \t\t\t</body>\n\t\t</html>\n\t\t"

/-- The html, css, and javascript of the webpage (`buildForm`): `fmt.Sprintf` of the
template with the six `%s` verbs filled by `bc, us, team, status, errmsg, results`. -/
def buildForm (results errmsg barcode user team status : String) : String :=
  let bc := if 0 < len barcode then "value=\"" ++ barcode ++ "\"" else "placeholder=\"Barcode\""
  let us := if 0 < len user then "value=\"" ++ user ++ "\"" else "placeholder=\"Name\""
  formHead ++ bc ++ formAfterBarcode ++ us ++ formAfterUser ++ team ++ formAfterTeam
    ++ status ++ formAfterStatus ++ errmsg ++ formAfterError ++ results ++ formTail

/-! ## `fmt.Fprintf` with a format and no operands -/

/-- Go `fmt.parsenum` on the bytes left: the number, whether one was read, and the bytes
after it.  A number above 1e6 gives up and skips to the end. -/
def parsenum : List Char → Nat → Bool → Nat × Bool × List Char
  | [], num, isnum => (num, isnum, [])
  | c :: cs, num, isnum =>
    if isDigit c then
      if 1000000 < num then (0, false, [])
      else parsenum cs (num * 10 + digitVal c) true
    else (num, isnum, c :: cs)

/-- The bytes before the first `]`, and the bytes after it (`none` without a `]`). -/
def splitBracket : List Char → Option (List Char × List Char)
  | [] => none
  | c :: cs =>
    if c = ']' then some ([], cs)
    else
      match splitBracket cs with
      | none => none
      | some (inner, after) => some (c :: inner, after)

/-- Go `fmt.parseArgNumber` for the bytes after an opening `[` (the first argument): whether
the bracketed number parsed, and the bytes after what is consumed.  Without a closing
bracket only the `[` is consumed. -/
def parseArgNumber (cs : List Char) : Bool × List Char :=
  if cs.length + 1 < 3 then (false, cs)
  else
    match splitBracket cs with
    | none => (false, cs)
    | some (inner, after) =>
      match inner with
      | [] => (false, after)
      | _ :: _ =>
        let r := parsenum inner 0 false
        (r.2.1 && r.2.2.isEmpty, after)

/-- Go `pp.argNumber` with no operands: on an explicit index `[n]` the index is never
valid, so `goodArgNum` is cleared.  Gives `found`, the new `goodArgNum` and the bytes left. -/
def argNumber (s : List Char) (good : Bool) : Bool × Bool × List Char :=
  match s with
  | '[' :: cs =>
    let r := parseArgNumber cs
    (r.1, false, r.2)
  | _ => (false, good, s)

/-- The flags `# 0 + - space` after a `%`. -/
def dropFlags : List Char → List Char
  | [] => []
  | c :: cs =>
    if c = '#' ∨ c = '0' ∨ c = '+' ∨ c = '-' ∨ c = ' ' then dropFlags cs else c :: cs

/-- One verb of `pp.doPrintf` with no operands, for the bytes after the `%`: what is
written and the bytes left.  A `.` starts a precision only when a byte follows it
(`i+1 < end`); as the last byte it is the verb. -/
def printVerb (s : List Char) : List Char × List Char :=
  let s := dropFlags s
  -- explicit argument index
  let a1 := argNumber s true
  let afterIndex := a1.1
  let good := a1.2.1
  let s := a1.2.2
  -- width
  let wd : List Char × Bool × Bool × List Char :=
    match s with
    | '*' :: cs => ("%!(BADWIDTH)".data, false, good, cs)
    | _ =>
      let r := parsenum s 0 false
      ([], afterIndex, if afterIndex && r.2.1 then false else good, r.2.2)
  let out1 := wd.1
  let afterIndex := wd.2.1
  let good := wd.2.2.1
  let s := wd.2.2.2
  -- precision
  let pr : List Char × Bool × Bool × List Char :=
    match s with
    | '.' :: c1 :: cs1 =>
      let good := if afterIndex then false else good
      let a2 := argNumber (c1 :: cs1) good
      match a2.2.2 with
      | '*' :: cs2 => ("%!(BADPREC)".data, false, a2.2.1, cs2)
      | rest => ([], a2.1, a2.2.1, (parsenum rest 0 false).2.2)
    | _ => ([], afterIndex, good, s)
  let out2 := pr.1
  let afterIndex := pr.2.1
  let good := pr.2.2.1
  let s := pr.2.2.2
  let a3 := if afterIndex then (afterIndex, good, s) else argNumber s good
  let good := a3.2.1
  match a3.2.2 with
  | [] => (out1 ++ out2 ++ "%!(NOVERB)".data, [])
  | verb :: rest =>
    if verb = '%' then (out1 ++ out2 ++ ['%'], rest)
    else if !good then (out1 ++ out2 ++ "%!".data ++ [verb] ++ "(BADINDEX)".data, rest)
    else (out1 ++ out2 ++ "%!".data ++ [verb] ++ "(MISSING)".data, rest)

/-- Go `pp.doPrintf(format, nil)`: text up to a `%` is copied, each `%` starts a verb.
The first argument bounds the number of steps. -/
def doPrintf : Nat → List Char → List Char
  | 0, _ => []
  | _ + 1, [] => []
  | fuel + 1, c :: cs =>
    if c = '%' then
      let r := printVerb cs
      r.1 ++ doPrintf fuel r.2
    else c :: doPrintf fuel cs

/-- What `fmt.Fprintf(w, format)` writes when called with a format and no operands. -/
def Sprintf0 (format : String) : String :=
  String.mk (doPrintf (format.data.length + 1) format.data)

/-- Go `fmt.Fprintf(response, format)`: the formatted text is written to the response. -/
def Fprintf (w : World) (format : String) : World :=
  { w with response := w.response ++ Sprintf0 format }

/-! ## Request handler -/

/-- An incoming `*http.Request`: the error of `ParseForm`, and the values
`PostFormValue` gives for the keys `barcode`, `user`, `team` and `status`. -/
structure Request where
  parseFormErr : Option String
  barcode : String
  user : String
  team : String
  status : String

/-- Handles reading data from the page and sending it over to the google sheet
(`scanhandler`). -/
def scanhandler (srv : Service) (BARCODES : Index) (spreadsheetId : String)
    (request : Request) (w : World) : Except Abort World :=
  match request.parseFormErr with
  | some e => Except.error (Abort.fatal ("Error while parsing: " ++ e))
  | none =>
    let barcode := request.barcode
    let name := request.user
    let team := request.team
    let status := request.status
    let r := scanErrors BARCODES barcode name
    match r.2 with
    | some msg =>
      let barcode := if r.1 = 0 then "" else barcode
      let name := if r.1 = 0 then name else if r.1 = 1 then "" else name
      match checkStatus srv BARCODES spreadsheetId barcode w with
      | Except.error a => Except.error a
      | Except.ok (st, w1) => Except.ok (Fprintf w1 (buildForm "" msg barcode name team st))
    | none =>
      let w1 := writeToSheet srv BARCODES spreadsheetId barcode name team status w
      Except.ok (Fprintf w1 (buildForm "" "" "" "" "" ""))

/-- A service whose reads all give the grid `Values` and whose updates succeed. -/
def gridService (Values : List (List String)) : Service :=
  { get := fun _ _ => (some { Values := Values }, none)
    update := fun _ _ _ _ => none }

/-- A service whose reads all give the one-cell grid `cell` and whose updates succeed. -/
def constService (cell : String) : Service := gridService [[cell]]

/-- A service whose reads all fail: an error and no result. -/
def failingService : Service :=
  { get := fun _ _ => (none, some "oauth2: token expired and refresh token is not set")
    update := fun _ _ _ _ => some "oauth2: token expired and refresh token is not set" }

/-- A sample column: two headers and three barcodes, one of them twice. -/
def sampleGrid : List (List String) :=
  [["Barcodes:"], ["BC100"], ["Phones:"], ["BC200"], ["BC100"]]

/-- The world before any effect. -/
def World.start : World := { calls := [], response := "" }

/-- The column a grid holds: the text of the first cell of each row (`row[0]`). -/
def firstCells (Values : List (List String)) : List String :=
  Values.map (fun row => row.headD "")

/-- The index the loop of `createBarcodeList` builds from a column of cell texts, from row
`index` on, when every row has a cell. -/
def scanColumn : List String → Nat → Index → Index
  | [], _, BARCODES => BARCODES
  | barcodeStr :: rest, index, BARCODES =>
    if inequalStrings barcodeStr then
      scanColumn rest (index + 1) (mapAssign BARCODES barcodeStr (Itoa ((index : Int) + 1)))
    else scanColumn rest (index + 1) BARCODES

/-- The keys of an index. -/
def mapKeys (m : Index) : List String := m.map Prod.fst

/-- The index maps the barcode to a string that `strconv.Atoi` parses, without error, as
an integer >= 1. -/
def parsesPositive (BARCODES : Index) (barcode : String) : Prop :=
  ∃ v n, mapLookup BARCODES barcode = some v ∧ Atoi v = (n, none) ∧ 1 ≤ n

/-- The index maps the barcode to a string that `strconv.Atoi` rejects as out of range on
the positive side, returning the largest `int` next to the error. -/
def clampedPositive (BARCODES : Index) (barcode : String) : Prop :=
  ∃ v, mapLookup BARCODES barcode = some v ∧ Atoi v = (maxInt, some NumError.ErrRange)

/-! ## Lemmas: strings and `strconv` -/

theorem utf8ByteSize_go_eq_zero (cs : List Char) :
    String.utf8ByteSize.go cs = 0 ↔ cs = [] := by
  cases cs with
  | nil => simp [String.utf8ByteSize.go]
  | cons c cs =>
    have hc : 0 < c.utf8Size := Char.utf8Size_pos c
    simp only [String.utf8ByteSize.go]
    constructor
    · intro h; omega
    · intro h; cases h

theorem len_eq_zero_iff (s : String) : len s = 0 ↔ s = "" := by
  cases s with
  | mk cs =>
    simp only [len, String.utf8ByteSize]
    rw [utf8ByteSize_go_eq_zero]
    constructor
    · intro h; subst h; rfl
    · intro h; exact congrArg String.data h

theorem len_lt_one_iff (s : String) : len s < 1 ↔ s = "" := by
  rw [← len_eq_zero_iff]; omega

theorem isDigit_digitChar (d : Nat) (h : d < 10) : isDigit (digitChar d) = true := by
  interval_cases d <;> decide

theorem digitVal_digitChar (d : Nat) (h : d < 10) : digitVal (digitChar d) = d := by
  interval_cases d <;> decide

theorem isDigit_ne_minus (c : Char) (h : isDigit c = true) : (c == '-') = false := by
  cases hc : (c == '-') with
  | false => rfl
  | true =>
    have : c = '-' := by simpa using hc
    subst this
    exact absurd h (by decide)

theorem isDigit_ne_plus (c : Char) (h : isDigit c = true) : (c == '+') = false := by
  cases hc : (c == '+') with
  | false => rfl
  | true =>
    have : c = '+' := by simpa using hc
    subst this
    exact absurd h (by decide)

/-- The digits `formatBits` emits start with a digit. -/
theorem formatBits_head (fuel u : Nat) (acc : List Char) (h : u < fuel) :
    ∃ c rest, formatBits fuel u acc = c :: rest ∧ isDigit c = true := by
  induction fuel generalizing u acc with
  | zero => omega
  | succ fuel ih =>
    unfold formatBits
    by_cases hu : u < 10
    · rw [if_pos hu]
      exact ⟨digitChar u, acc, rfl, isDigit_digitChar u hu⟩
    · rw [if_neg hu]
      exact ih (u / 10) _ (by omega)

/-- Reading back the digits of `u` with the fast loop of `Atoi` gives `u`. -/
theorem atoiLoop_formatBits (fuel u : Nat) (acc : List Char) (h : u < fuel) :
    atoiLoop (formatBits fuel u acc) 0 = atoiLoop acc u := by
  induction fuel generalizing u acc with
  | zero => omega
  | succ fuel ih =>
    unfold formatBits
    by_cases hu : u < 10
    · rw [if_pos hu]
      simp [atoiLoop, isDigit_digitChar u hu, digitVal_digitChar u hu]
    · rw [if_neg hu]
      rw [ih (u / 10) _ (by omega)]
      have hm : u % 10 < 10 := Nat.mod_lt _ (by decide)
      simp only [atoiLoop, isDigit_digitChar _ hm, digitVal_digitChar _ hm, if_true]
      congr 1
      omega

/-- Reading back the digits of `u` with the loop of `ParseUint` gives `u`, as long as
`u` fits a 64-bit `int`. -/
theorem parseUintLoop_formatBits (fuel u : Nat) (acc : List Char) (h : u < fuel)
    (hu : u ≤ 9223372036854775807) :
    parseUintLoop (formatBits fuel u acc) 0 = parseUintLoop acc u := by
  induction fuel generalizing u acc with
  | zero => omega
  | succ fuel ih =>
    unfold formatBits
    by_cases h10 : u < 10
    · rw [if_pos h10]
      have h1 : (0 * 10 + u) % 18446744073709551616 = u := by omega
      have h2 : ¬ (maxUint64 / 10 + 1 ≤ 0) := by simp [maxUint64]
      have h3 : ¬ (u < 0 * 10 ∨ maxUint64 < u) := by
        simp only [maxUint64]; omega
      simp only [parseUintLoop, isDigit_digitChar _ h10, digitVal_digitChar _ h10, if_true,
        if_neg h2, h1, if_neg h3]
    · rw [if_neg h10]
      rw [ih (u / 10) _ (by omega) (by omega)]
      have hm : u % 10 < 10 := Nat.mod_lt _ (by decide)
      have h1 : (u / 10 * 10 + u % 10) % 18446744073709551616 = u := by omega
      have h2 : ¬ (maxUint64 / 10 + 1 ≤ u / 10) := by
        simp only [maxUint64]; omega
      have h3 : ¬ (u < u / 10 * 10 ∨ maxUint64 < u) := by
        simp only [maxUint64]; omega
      simp only [parseUintLoop, isDigit_digitChar _ hm, digitVal_digitChar _ hm, if_true,
        if_neg h2, h1, if_neg h3]

/-- Round trip of `strconv`: `Atoi (Itoa n)` is `n` without an error for every `int`
value `n ≥ 0`. -/
theorem Atoi_Itoa (n : Nat) (hn : (n : Int) ≤ maxInt) : Atoi (Itoa (n : Int)) = ((n : Int), none) := by
  have hn' : n ≤ 9223372036854775807 := by
    simp only [maxInt] at hn; omega
  have hI : Itoa (n : Int) = String.mk (formatBits (n + 1) n []) := by
    simp [Itoa]
  obtain ⟨c, rest, hcr, hc⟩ := formatBits_head (n + 1) n [] (by omega)
  have hfast := atoiLoop_formatBits (n + 1) n [] (by omega)
  have hslow := parseUintLoop_formatBits (n + 1) n [] (by omega) hn'
  rw [hcr] at hfast hslow
  rw [hI, hcr]
  have hm := isDigit_ne_minus c hc
  have hp := isDigit_ne_plus c hc
  unfold Atoi
  by_cases hlen : 0 < len (String.mk (c :: rest)) ∧ len (String.mk (c :: rest)) < 19
  · rw [if_pos hlen]
    simp [hm, hp, hfast, atoiLoop]
  · rw [if_neg hlen]
    have hge : ¬ (9223372036854775808 ≤ n) := by omega
    simp [ParseInt, ParseUint, hm, hp, hslow, parseUintLoop, hge]

/-- The loop of `ParseUint` ends in one of three ways. -/
theorem parseUintLoop_cases (cs : List Char) (n : Nat) :
    (∃ m, parseUintLoop cs n = (m, none)) ∨
    parseUintLoop cs n = (0, some NumError.ErrSyntax) ∨
    parseUintLoop cs n = (maxUint64, some NumError.ErrRange) := by
  induction cs generalizing n with
  | nil => exact Or.inl ⟨n, rfl⟩
  | cons c cs ih =>
    unfold parseUintLoop
    by_cases hd : isDigit c = true
    · rw [if_pos hd]
      by_cases h1 : maxUint64 / 10 + 1 ≤ n
      · rw [if_pos h1]; exact Or.inr (Or.inr rfl)
      · rw [if_neg h1]
        simp only
        split
        · exact Or.inr (Or.inr rfl)
        · exact ih _
    · rw [if_neg hd]; exact Or.inr (Or.inl rfl)

theorem ParseUint_cases (cs : List Char) :
    (∃ m, ParseUint cs = (m, none)) ∨
    ParseUint cs = (0, some NumError.ErrSyntax) ∨
    ParseUint cs = (maxUint64, some NumError.ErrRange) := by
  cases cs with
  | nil => exact Or.inr (Or.inl rfl)
  | cons c cs => exact parseUintLoop_cases (c :: cs) 0

/-- `ParseInt` returns a value without error, 0 with a syntax error, or one of the two
ends of the `int` range with a range error. -/
theorem ParseInt_cases (cs : List Char) :
    (∃ m, ParseInt cs = (m, none)) ∨
    ParseInt cs = (0, some NumError.ErrSyntax) ∨
    ParseInt cs = (maxInt, some NumError.ErrRange) ∨
    ParseInt cs = (minInt, some NumError.ErrRange) := by
  cases cs with
  | nil => exact Or.inr (Or.inl rfl)
  | cons c cs =>
    simp only [ParseInt]
    generalize ParseUint (if (c == '+' || c == '-') = true then cs else c :: cs) = r
    by_cases h1 : r.2 = some NumError.ErrSyntax
    · rw [if_pos h1]; exact Or.inr (Or.inl rfl)
    · rw [if_neg h1]
      by_cases h2 : (!(c == '-') && decide (9223372036854775808 ≤ r.1)) = true
      · rw [if_pos h2]; exact Or.inr (Or.inr (Or.inl rfl))
      · rw [if_neg h2]
        by_cases h3 : ((c == '-') && decide (9223372036854775808 < r.1)) = true
        · rw [if_pos h3]; exact Or.inr (Or.inr (Or.inr rfl))
        · rw [if_neg h3]; exact Or.inl ⟨_, rfl⟩

/-- The outcomes of `Atoi`: a value without error, 0 with a syntax error, or the
largest (smallest) `int` with a range error. -/
theorem Atoi_cases (s : String) :
    (∃ m, Atoi s = (m, none)) ∨
    Atoi s = (0, some NumError.ErrSyntax) ∨
    Atoi s = (maxInt, some NumError.ErrRange) ∨
    Atoi s = (minInt, some NumError.ErrRange) := by
  unfold Atoi
  by_cases hlen : 0 < len s ∧ len s < 19
  · rw [if_pos hlen]
    cases s.data with
    | nil => exact Or.inr (Or.inl rfl)
    | cons c cs =>
      simp only
      by_cases h1 : ((c == '-' || c == '+') && (if (c == '-' || c == '+') = true then cs else c :: cs).isEmpty) = true
      · rw [if_pos h1]; exact Or.inr (Or.inl rfl)
      · rw [if_neg h1]
        cases atoiLoop (if (c == '-' || c == '+') = true then cs else c :: cs) 0 with
        | none => exact Or.inr (Or.inl rfl)
        | some n => exact Or.inl ⟨_, rfl⟩
  · rw [if_neg hlen]; exact ParseInt_cases _

theorem Atoi_empty : Atoi "" = (0, some NumError.ErrSyntax) := by decide

/-! ## Lemmas: the map -/

theorem mapLookup_mapAssign_self (m : Index) (k v : String) :
    mapLookup (mapAssign m k v) k = some v := by
  induction m with
  | nil => simp [mapAssign, mapLookup]
  | cons e rest ih =>
    obtain ⟨k0, v0⟩ := e
    by_cases h : k0 = k
    · simp [mapAssign, mapLookup, h]
    · simp [mapAssign, mapLookup, h, ih]

theorem mapLookup_mapAssign_ne (m : Index) (k k' v : String) (h : k ≠ k') :
    mapLookup (mapAssign m k v) k' = mapLookup m k' := by
  induction m with
  | nil => simp [mapAssign, mapLookup, h]
  | cons e rest ih =>
    obtain ⟨k0, v0⟩ := e
    by_cases h0 : k0 = k
    · subst h0
      simp [mapAssign, mapLookup, h]
    · by_cases h1 : k0 = k'
      · subst h1
        simp [mapAssign, mapLookup, h0]
      · simp [mapAssign, mapLookup, h0, h1, ih]

theorem mapLookup_eq_none_iff (m : Index) (k : String) :
    mapLookup m k = none ↔ k ∉ mapKeys m := by
  induction m with
  | nil => simp [mapLookup, mapKeys]
  | cons e rest ih =>
    obtain ⟨k0, v0⟩ := e
    by_cases h : k0 = k
    · simp [mapLookup, mapKeys, h]
    · have h' : ¬ k = k0 := fun hh => h hh.symm
      simp only [mapLookup, if_neg h, ih, mapKeys, List.map_cons, List.mem_cons, not_or]
      constructor
      · intro hh; exact ⟨h', hh⟩
      · intro hh; exact hh.2

theorem mapKeys_mapAssign_absent (m : Index) (k v : String) (h : k ∉ mapKeys m) :
    mapKeys (mapAssign m k v) = mapKeys m ++ [k] := by
  induction m with
  | nil => simp [mapAssign, mapKeys]
  | cons e rest ih =>
    obtain ⟨k0, v0⟩ := e
    simp only [mapKeys, List.map_cons, List.mem_cons, not_or] at h
    have h0 : ¬ k0 = k := fun hh => h.1 hh.symm
    have ih' := ih h.2
    simp only [mapKeys] at ih'
    simp [mapAssign, mapKeys, h0, ih']

theorem mapKeys_mapAssign_present (m : Index) (k v : String) (h : k ∈ mapKeys m) :
    mapKeys (mapAssign m k v) = mapKeys m := by
  induction m with
  | nil => simp [mapKeys] at h
  | cons e rest ih =>
    obtain ⟨k0, v0⟩ := e
    by_cases h0 : k0 = k
    · simp [mapAssign, mapKeys, h0]
    · simp only [mapKeys, List.map_cons, List.mem_cons] at h
      have hr : k ∈ mapKeys rest := by
        rcases h with h | h
        · exact absurd h.symm h0
        · exact h
      have ih' := ih hr
      simp only [mapKeys] at ih'
      simp [mapAssign, mapKeys, h0, ih']

theorem mapKeys_mapAssign_nodup (m : Index) (k v : String) (h : (mapKeys m).Nodup) :
    (mapKeys (mapAssign m k v)).Nodup := by
  by_cases hk : k ∈ mapKeys m
  · rw [mapKeys_mapAssign_present m k v hk]; exact h
  · rw [mapKeys_mapAssign_absent m k v hk]
    rw [List.nodup_append]
    refine ⟨h, List.nodup_singleton k, ?_⟩
    intro a ha hb
    simp only [List.mem_singleton] at hb
    subst hb
    exact hk ha

theorem mem_mapKeys_mapAssign (m : Index) (k v k' : String) :
    k' ∈ mapKeys (mapAssign m k v) ↔ k' ∈ mapKeys m ∨ k' = k := by
  by_cases hk : k ∈ mapKeys m
  · rw [mapKeys_mapAssign_present m k v hk]
    constructor
    · intro h; exact Or.inl h
    · intro h
      rcases h with h | h
      · exact h
      · subst h; exact hk
  · rw [mapKeys_mapAssign_absent m k v hk]
    simp

theorem mapLen_mapAssign_absent (m : Index) (k v : String) (h : k ∉ mapKeys m) :
    mapLen (mapAssign m k v) = mapLen m + 1 := by
  have h1 : (mapKeys (mapAssign m k v)).length = (mapKeys m ++ [k]).length := by
    rw [mapKeys_mapAssign_absent m k v h]
  simpa [mapKeys, mapLen] using h1

/-! ## Lemmas: the loop of `createBarcodeList` -/

/-- On a grid whose rows all have a cell the loop does not panic and builds
`scanColumn` of the column. -/
theorem createBarcodeLoop_eq (Values : List (List String)) (index : Nat) (m : Index)
    (hrows : ∀ row ∈ Values, row ≠ []) :
    createBarcodeLoop Values index m = Except.ok (scanColumn (firstCells Values) index m) := by
  induction Values generalizing index m with
  | nil => rfl
  | cons row rest ih =>
    have hrest : ∀ r ∈ rest, r ≠ [] := fun r hr => hrows r (List.mem_cons_of_mem _ hr)
    cases row with
    | nil => exact absurd rfl (hrows [] (List.mem_cons_self _ _))
    | cons cell more =>
      simp only [createBarcodeLoop, firstCells, List.map_cons, List.headD_cons, scanColumn]
      by_cases h : inequalStrings cell = true
      · simp only [h, if_true]
        exact ih _ _ hrest
      · simp only [h]
        exact ih _ _ hrest

/-- A row without a cell makes the loop panic (after the rows before it). -/
theorem createBarcodeLoop_empty_row (before after : List (List String)) (index : Nat)
    (m : Index) (hrows : ∀ row ∈ before, row ≠ []) :
    createBarcodeLoop (before ++ [] :: after) index m = Except.error indexOutOfRange := by
  induction before generalizing index m with
  | nil => rfl
  | cons row rest ih =>
    have hrest : ∀ r ∈ rest, r ≠ [] := fun r hr => hrows r (List.mem_cons_of_mem _ hr)
    cases row with
    | nil => exact absurd rfl (hrows [] (List.mem_cons_self _ _))
    | cons cell more =>
      simp only [List.cons_append, createBarcodeLoop]
      split
      · exact ih _ _ hrest
      · exact ih _ _ hrest

/-- The loop seen from its last row. -/
theorem scanColumn_append_singleton (col : List String) (c : String) (index : Nat)
    (m : Index) :
    scanColumn (col ++ [c]) index m =
      if inequalStrings c then
        mapAssign (scanColumn col index m) c (Itoa (((index + col.length : Nat) : Int) + 1))
      else scanColumn col index m := by
  induction col generalizing index m with
  | nil => simp [scanColumn]
  | cons d rest ih =>
    rw [List.cons_append]
    simp only [scanColumn, List.length_cons]
    have e : index + 1 + rest.length = index + (rest.length + 1) := by omega
    by_cases h : inequalStrings d = true
    · simp only [h, if_true]; rw [ih, e]
    · rw [if_neg h, if_neg h, ih, e]

/-- Keys of the built index: every key is a non-header cell of the column. -/
theorem scanColumn_key (col : List String) (k : String)
    (h : k ∈ mapKeys (scanColumn col 0 [])) : k ∈ col ∧ inequalStrings k = true := by
  induction col using List.reverseRecOn with
  | nil => simp [scanColumn, mapKeys] at h
  | append_singleton col c ih =>
    rw [scanColumn_append_singleton] at h
    by_cases hc : inequalStrings c = true
    · rw [if_pos hc, mem_mapKeys_mapAssign] at h
      rcases h with h | h
      · exact ⟨List.mem_append_left _ (ih h).1, (ih h).2⟩
      · subst h; exact ⟨by simp, hc⟩
    · rw [if_neg hc] at h
      exact ⟨List.mem_append_left _ (ih h).1, (ih h).2⟩

/-- Every non-header cell of the column is a key of the built index. -/
theorem scanColumn_mem_key (col : List String) (k : String) (hk : k ∈ col)
    (hh : inequalStrings k = true) : k ∈ mapKeys (scanColumn col 0 []) := by
  induction col using List.reverseRecOn with
  | nil => simp at hk
  | append_singleton col c ih =>
    rw [scanColumn_append_singleton]
    by_cases hc : inequalStrings c = true
    · rw [if_pos hc, mem_mapKeys_mapAssign]
      simp only [List.mem_append, List.mem_singleton] at hk
      rcases hk with hk | hk
      · exact Or.inl (ih hk)
      · exact Or.inr hk
    · rw [if_neg hc]
      simp only [List.mem_append, List.mem_singleton] at hk
      rcases hk with hk | hk
      · exact ih hk
      · subst hk; exact absurd hh hc

/-- No key occurs twice in the built index. -/
theorem scanColumn_nodup (col : List String) : (mapKeys (scanColumn col 0 [])).Nodup := by
  induction col using List.reverseRecOn with
  | nil => simp [scanColumn, mapKeys]
  | append_singleton col c ih =>
    rw [scanColumn_append_singleton]
    by_cases hc : inequalStrings c = true
    · rw [if_pos hc]; exact mapKeys_mapAssign_nodup _ _ _ ih
    · rw [if_neg hc]; exact ih

/-- Last row wins: the built index maps a non-header text to the row number of its
last position in the column. -/
theorem scanColumn_last (col : List String) (t : String) (j : Nat)
    (hj : col[j]? = some t) (hh : inequalStrings t = true)
    (hlast : ∀ k, j < k → col[k]? ≠ some t) :
    mapLookup (scanColumn col 0 []) t = some (Itoa ((j : Int) + 1)) := by
  induction col using List.reverseRecOn with
  | nil => simp at hj
  | append_singleton col c ih =>
    rw [scanColumn_append_singleton]
    by_cases hjl : j < col.length
    · have hj' : col[j]? = some t := by
        rw [List.getElem?_append_left hjl] at hj; exact hj
      have hct : c ≠ t := by
        intro hc
        apply hlast col.length hjl
        simp [hc]
      have hlast' : ∀ k, j < k → col[k]? ≠ some t := by
        intro k hk hkt
        have hkl : k < col.length := by
          by_contra hge
          have : col[k]? = none := List.getElem?_eq_none (by omega)
          rw [this] at hkt; cases hkt
        apply hlast k hk
        rw [List.getElem?_append_left hkl]; exact hkt
      by_cases hc : inequalStrings c = true
      · rw [if_pos hc, mapLookup_mapAssign_ne _ _ _ _ hct]
        exact ih hj' hlast'
      · rw [if_neg hc]; exact ih hj' hlast'
    · have hlen : (col ++ [c]).length = col.length + 1 := by simp
      have hjlt : j < (col ++ [c]).length := by
        by_contra hge
        have : (col ++ [c])[j]? = none := List.getElem?_eq_none (by omega)
        rw [this] at hj; cases hj
      have hje : j = col.length := by omega
      subst hje
      have hc : c = t := by simpa using hj
      subst hc
      rw [if_pos hh, mapLookup_mapAssign_self]
      simp

/-- Every value of the built index is the row number of a position that holds its key. -/
theorem scanColumn_value (col : List String) (k v : String)
    (h : mapLookup (scanColumn col 0 []) k = some v) :
    ∃ j : Nat, col[j]? = some k ∧ v = Itoa ((j : Int) + 1) := by
  induction col using List.reverseRecOn generalizing v with
  | nil => simp [scanColumn, mapLookup] at h
  | append_singleton col c ih =>
    rw [scanColumn_append_singleton] at h
    have lift : (∃ j : Nat, col[j]? = some k ∧ v = Itoa ((j : Int) + 1)) →
        ∃ j : Nat, (col ++ [c])[j]? = some k ∧ v = Itoa ((j : Int) + 1) := by
      rintro ⟨j, hj, hv⟩
      have hjl : j < col.length := by
        by_contra hge
        have : col[j]? = none := List.getElem?_eq_none (by omega)
        rw [this] at hj; cases hj
      exact ⟨j, by rw [List.getElem?_append_left hjl]; exact hj, hv⟩
    by_cases hc : inequalStrings c = true
    · rw [if_pos hc] at h
      by_cases hck : c = k
      · subst hck
        rw [mapLookup_mapAssign_self] at h
        refine ⟨col.length, by simp, ?_⟩
        have := Option.some.inj h
        simpa using this.symm
      · rw [mapLookup_mapAssign_ne _ _ _ _ hck] at h
        exact lift (ih v h)
    · rw [if_neg hc] at h
      exact lift (ih v h)

/-- A column of distinct non-header cells gives one entry per cell. -/
theorem scanColumn_length (col : List String) (hh : ∀ c ∈ col, inequalStrings c = true)
    (hnd : col.Nodup) : mapLen (scanColumn col 0 []) = col.length := by
  induction col using List.reverseRecOn with
  | nil => rfl
  | append_singleton col c ih =>
    rw [scanColumn_append_singleton]
    have hc : inequalStrings c = true := hh c (by simp)
    have hnd' := List.nodup_append.mp hnd
    have hnot : c ∉ col := by
      intro hmem
      exact hnd'.2.2 hmem (by simp)
    have hkey : c ∉ mapKeys (scanColumn col 0 []) := fun hk => hnot (scanColumn_key col c hk).1
    rw [if_pos hc, mapLen_mapAssign_absent _ _ _ hkey,
      ih (fun d hd => hh d (List.mem_append_left _ hd)) hnd'.1]
    simp

/-- The loop of `inequalStrings` accepts exactly the texts outside the list. -/
theorem inequalLoop_iff (labels : List String) (barcode : String) :
    inequalLoop labels barcode = true ↔ barcode ∉ labels := by
  induction labels with
  | nil => simp [inequalLoop]
  | cons s rest ih =>
    by_cases h : barcode = s
    · simp [inequalLoop, h]
    · simp [inequalLoop, h, ih]

/-- The filter `inequalStrings` accepts exactly the texts that are none of the ten labels. -/
theorem inequalStrings_iff (barcode : String) :
    inequalStrings barcode = true ↔
      barcode ∉ ["Barcodes:", "Expansion Hubs:", "Control Hubs:", "Robot Batteries:",
        "Chargers:", "Controllers:", "Phones:", "Drills:", "Motors:", "Servos:"] :=
  inequalLoop_iff headerLabels barcode

theorem inequalStrings_header (h : String) (hh : h ∈ headerLabels) :
    inequalStrings h = false := by
  simp only [headerLabels, List.mem_cons, List.mem_singleton, List.not_mem_nil, or_false] at hh
  rcases hh with h | h | h | h | h | h | h | h | h | h <;> subst h <;> decide

/-- With a grid whose rows all have a cell, `createBarcodeList` returns: it issues the one
read of `H:H` and gives the index `scanColumn` builds from the column. -/
theorem createBarcodeList_ok (srv : Service) (spreadsheetId : String) (m : Index) (w : World)
    (vr : ValueRange) (hget : (srv.get spreadsheetId "H:H").1 = some vr)
    (hrows : ∀ row ∈ vr.Values, row ≠ []) :
    createBarcodeList srv spreadsheetId m w =
      Except.ok (scanColumn (firstCells vr.Values) 0 m,
        { w with calls := w.calls ++ [Call.get spreadsheetId "H:H"] }) := by
  simp only [createBarcodeList, hget, createBarcodeLoop_eq vr.Values 0 m hrows]

/-- On the empty index, and on any index without the barcode, the barcode check of
`scanErrors` fires. -/
theorem Atoi_mapIndex_absent (m : Index) (barcode : String) (h : mapLookup m barcode = none) :
    (Atoi (mapIndex m barcode)).1 = 0 := by
  simp [mapIndex, h, Atoi_empty]

/-! ## C1: both checks fail -/

/-- C1 as stated fails: with the barcode "BC999" absent from the (empty) index and an
empty name, both conditions hold, and `scanErrors` reports the invalid-name error (errNum
1), not the invalid-barcode error (errNum 0). -/
theorem scanErrors_barcode_precedence_counterexample :
    (Atoi (mapIndex [] "BC999")).1 < 1 ∧ len "" < 1 ∧
    scanErrors [] "BC999" "" = (1, some "invalid name: please re-enter name") ∧
    scanErrors [] "BC999" "" ≠ (0, some "invalid barcode: please scan again") := by
  decide

/-- C1, amended: when both validation conditions hold at once (the barcode does not
resolve to a positive row number and the name is empty), `scanErrors` reports exactly one
error and it is the invalid-name error (errNum 1, "invalid name: please re-enter name"):
the name check runs last and overwrites the result of the barcode check. -/
theorem scanErrors_name_precedence (BARCODES : Index) (barcode name : String)
    (_hbarcode : (Atoi (mapIndex BARCODES barcode)).1 < 1) (hname : len name < 1) :
    scanErrors BARCODES barcode name = (1, some "invalid name: please re-enter name") := by
  simp only [scanErrors, if_pos hname]

/-- An instance of the amended C1: an absent barcode and an empty name. -/
theorem scanErrors_name_precedence_witness :
    scanErrors [] "BC999" "" = (1, some "invalid name: please re-enter name") :=
  scanErrors_name_precedence [] "BC999" "" (by decide) (by decide)

/-! ## C2: classification by `scanErrors` -/

/-- C2 as stated fails: the index maps "A" to a string of twenty nines, which
`strconv.Atoi` does not parse (it reports a range error), yet with the name "Alice"
`scanErrors` returns no error instead of errNum 0, because the clamped value `Atoi`
returns next to the dropped error is positive.  The same happens for "B", mapped to twenty
nines followed by a letter: the loop of `ParseUint` stops at the overflow, before it looks at
the letter. -/
theorem scanErrors_classification_counterexample :
    (Atoi "99999999999999999999").2 = some NumError.ErrRange ∧
    ¬ parsesPositive [("A", "99999999999999999999")] "A" ∧
    scanErrors [("A", "99999999999999999999")] "A" "Alice" = (-1, none) ∧
    ¬ (scanErrors [("A", "99999999999999999999")] "A" "Alice" = (-1, none) ↔
        parsesPositive [("A", "99999999999999999999")] "A" ∧ "Alice" ≠ "") ∧
    Atoi "99999999999999999999x" = (maxInt, some NumError.ErrRange) ∧
    scanErrors [("B", "99999999999999999999x")] "B" "Alice" = (-1, none) := by
  have hA : Atoi "99999999999999999999" = (9223372036854775807, some NumError.ErrRange) := by
    decide
  have hnot : ¬ parsesPositive [("A", "99999999999999999999")] "A" := by
    rintro ⟨v, n, hv, hn, _⟩
    have hl : mapLookup [("A", "99999999999999999999")] "A" = some "99999999999999999999" := by
      decide
    rw [hl] at hv
    have hv2 : v = "99999999999999999999" := (Option.some.inj hv).symm
    subst hv2
    rw [hA] at hn
    cases hn
  have h1 : scanErrors [("A", "99999999999999999999")] "A" "Alice" = (-1, none) := by decide
  exact ⟨by rw [hA], hnot, h1, fun h => hnot (h.mp h1).1, by decide, by decide⟩

/-- C2, amended: `scanErrors` returns no error (errNum -1, nil) exactly when the name is
non-empty and the index maps the barcode to a string for which `strconv.Atoi` yields a
value >= 1, that is, one that parses as an integer >= 1 or that is out of range on the
positive side (the error is dropped and the value is the largest int).  For a non-empty name
and a barcode that is absent from the index or maps to a string with a syntax error, a
parsed value below 1 or a value out of range on the negative side, it returns errNum 0 with
"invalid barcode: please scan again".  For a barcode that parses to a positive row and an
empty name it returns errNum 1 with "invalid name: please re-enter name". -/
theorem scanErrors_classification (BARCODES : Index) (barcode name : String) :
    (scanErrors BARCODES barcode name = (-1, none) ↔
      (parsesPositive BARCODES barcode ∨ clampedPositive BARCODES barcode) ∧ name ≠ "") ∧
    (name ≠ "" →
      (mapLookup BARCODES barcode = none ∨
        ∃ v, mapLookup BARCODES barcode = some v ∧
          (Atoi v = (0, some NumError.ErrSyntax) ∨ (∃ n, Atoi v = (n, none) ∧ n < 1) ∨
            Atoi v = (minInt, some NumError.ErrRange))) →
      scanErrors BARCODES barcode name = (0, some "invalid barcode: please scan again")) ∧
    (parsesPositive BARCODES barcode → name = "" →
      scanErrors BARCODES barcode name = (1, some "invalid name: please re-enter name")) := by
  refine ⟨?_, ?_, ?_⟩
  · constructor
    · intro h
      have hname : ¬ len name < 1 := by
        intro hn
        simp only [scanErrors, if_pos hn] at h
        cases h
      have hx : ¬ (Atoi (mapIndex BARCODES barcode)).1 < 1 := by
        intro hx
        simp only [scanErrors, if_neg hname, if_pos hx] at h
        cases h
      refine ⟨?_, fun hn => hname ((len_lt_one_iff name).mpr hn)⟩
      cases hl : mapLookup BARCODES barcode with
      | none =>
        rw [Atoi_mapIndex_absent BARCODES barcode hl] at hx
        exact absurd (by decide) hx
      | some v =>
        have hv : mapIndex BARCODES barcode = v := by simp [mapIndex, hl]
        rw [hv] at hx
        rcases Atoi_cases v with ⟨n, hn⟩ | hs | hmax | hmin
        · rw [hn] at hx
          exact Or.inl ⟨v, n, hl, hn, by simpa using hx⟩
        · rw [hs] at hx; exact absurd (by decide) hx
        · exact Or.inr ⟨v, hl, hmax⟩
        · rw [hmin] at hx; exact absurd (by decide) hx
    · rintro ⟨hpos, hname⟩
      have hn : ¬ len name < 1 := fun h => hname ((len_lt_one_iff name).mp h)
      have hx : ¬ (Atoi (mapIndex BARCODES barcode)).1 < 1 := by
        rcases hpos with ⟨v, n, hl, hA, h1⟩ | ⟨v, hl, hA⟩
        · have hv : mapIndex BARCODES barcode = v := by simp [mapIndex, hl]
          rw [hv, hA]; simpa using h1
        · have hv : mapIndex BARCODES barcode = v := by simp [mapIndex, hl]
          rw [hv, hA]; decide
      simp only [scanErrors, if_neg hn, if_neg hx]
  · intro hname hbad
    have hn : ¬ len name < 1 := fun h => hname ((len_lt_one_iff name).mp h)
    have hx : (Atoi (mapIndex BARCODES barcode)).1 < 1 := by
      rcases hbad with hl | ⟨v, hl, hA⟩
      · rw [Atoi_mapIndex_absent BARCODES barcode hl]; decide
      · have hv : mapIndex BARCODES barcode = v := by simp [mapIndex, hl]
        rw [hv]
        rcases hA with hA | ⟨n, hA, h1⟩ | hA
        · rw [hA]; decide
        · rw [hA]; exact h1
        · rw [hA]; decide
    simp only [scanErrors, if_neg hn, if_pos hx]
  · intro _ hname
    have hn : len name < 1 := (len_lt_one_iff name).mpr hname
    simp only [scanErrors, if_pos hn]

/-! ## C3: a column of distinct non-header cells -/

/-- C3: for every column in which every cell is a non-header string and no two cells are
equal, `createBarcodeList` run on an initially empty index returns an index with exactly one
entry per cell (as many entries as cells, no key twice), and the cell at 0-based position
`i` maps its text to the decimal string of `i + 1`. -/
theorem createBarcodeList_unique_column (srv : Service) (spreadsheetId : String) (w : World)
    (vr : ValueRange) (hget : (srv.get spreadsheetId "H:H").1 = some vr)
    (hrows : ∀ row ∈ vr.Values, row ≠ [])
    (hcells : ∀ c ∈ firstCells vr.Values, inequalStrings c = true)
    (hdistinct : (firstCells vr.Values).Nodup) :
    ∃ idx w1, createBarcodeList srv spreadsheetId [] w = Except.ok (idx, w1) ∧
      mapLen idx = (firstCells vr.Values).length ∧
      (mapKeys idx).Nodup ∧
      ∀ (i : Nat) (c : String), (firstCells vr.Values)[i]? = some c →
        mapLookup idx c = some (Itoa ((i : Int) + 1)) := by
  refine ⟨_, _, createBarcodeList_ok srv spreadsheetId [] w vr hget hrows, ?_, ?_, ?_⟩
  · exact scanColumn_length _ hcells hdistinct
  · exact scanColumn_nodup _
  · intro i c hi
    have hmem : c ∈ firstCells vr.Values := List.getElem?_mem hi
    refine scanColumn_last _ c i hi (hcells c hmem) ?_
    intro k hk hkc
    have hik : i < (firstCells vr.Values).length := by
      by_contra hge
      rw [List.getElem?_eq_none (by omega)] at hi; cases hi
    have hkl : k < (firstCells vr.Values).length := by
      by_contra hge
      rw [List.getElem?_eq_none (by omega)] at hkc; cases hkc
    have h1 : (firstCells vr.Values)[i] = c := by
      rw [List.getElem?_eq_getElem hik] at hi; exact Option.some.inj hi
    have h2 : (firstCells vr.Values)[k] = c := by
      rw [List.getElem?_eq_getElem hkl] at hkc; exact Option.some.inj hkc
    have := (List.Nodup.getElem_inj_iff hdistinct).mp (h1.trans h2.symm)
    omega

/-- An instance of C3: a column of two distinct barcodes. -/
theorem createBarcodeList_unique_column_witness :
    ∃ idx w1, createBarcodeList (gridService [["BC100"], ["BC200"]]) "sheet" [] World.start
        = Except.ok (idx, w1) ∧
      mapLen idx = (firstCells [["BC100"], ["BC200"]]).length ∧
      (mapKeys idx).Nodup ∧
      ∀ (i : Nat) (c : String), (firstCells [["BC100"], ["BC200"]])[i]? = some c →
        mapLookup idx c = some (Itoa ((i : Int) + 1)) :=
  createBarcodeList_unique_column (gridService [["BC100"], ["BC200"]]) "sheet" World.start
    { Values := [["BC100"], ["BC200"]] } rfl (by decide) (by decide) (by decide)

/-! ## C4: the write-back -/

/-- C4: for every index, barcode, name, team and status, `writeToSheet` issues exactly one
call, an update, whose range is "C" followed by the row identifier the index holds for the
barcode and whose payload is the single row [availability, name, team], where availability
is "Available" when status is "checkIn" and "Unavailable" otherwise; name and team are
passed through unchanged, and nothing is written to the response. -/
theorem writeToSheet_one_update (srv : Service) (BARCODES : Index)
    (spreadsheetId barcode name team status : String) (w : World) :
    (writeToSheet srv BARCODES spreadsheetId barcode name team status w).calls =
      w.calls ++ [Call.update spreadsheetId ("C" ++ mapIndex BARCODES barcode)
        { Values := [[if status = "checkIn" then "Available" else "Unavailable", name, team]] }
        "RAW"] ∧
    (writeToSheet srv BARCODES spreadsheetId barcode name team status w).response
      = w.response ∧
    (status = "checkOut" →
      (writeToSheet srv BARCODES spreadsheetId barcode name team status w).calls =
        w.calls ++ [Call.update spreadsheetId ("C" ++ mapIndex BARCODES barcode)
          { Values := [["Unavailable", name, team]] } "RAW"]) := by
  refine ⟨?_, rfl, ?_⟩
  · by_cases h : status = "checkIn"
    · simp [writeToSheet, findCellFromTable, h]
    · simp [writeToSheet, findCellFromTable, h]
  · intro h
    subst h
    simp [writeToSheet, findCellFromTable]

/-! ## C5: header rows -/

/-- C5 as stated fails: in the column "Barcodes:", "BC100", "Phones:", "BC200", "BC100"
the cell at position 1 holds the non-header text "BC100", yet the built index does not map
it to the row number of its own position, "2": the same text stands again at position 4
and the index maps it to "5". -/
theorem createBarcodeList_own_row_counterexample :
    ∃ idx w1,
      createBarcodeList
          (gridService [["Barcodes:"], ["BC100"], ["Phones:"], ["BC200"], ["BC100"]])
          "sheet" [] World.start = Except.ok (idx, w1) ∧
      (firstCells [["Barcodes:"], ["BC100"], ["Phones:"], ["BC200"], ["BC100"]])[1]?
        = some "BC100" ∧
      "BC100" ∉ ["Barcodes:", "Expansion Hubs:", "Control Hubs:", "Robot Batteries:",
        "Chargers:", "Controllers:", "Phones:", "Drills:", "Motors:", "Servos:"] ∧
      mapLookup idx "BC100" = some "5" ∧
      mapLookup idx "BC100" ≠ some (Itoa (((1 : Nat) : Int) + 1)) :=
  ⟨[("BC100", "5"), ("BC200", "4")], { calls := [Call.get "sheet" "H:H"], response := "" },
    by rfl, by decide, by decide, by decide, by decide⟩

/-- C5, amended: for every column, with header-label cells at any positions, the index
built by `createBarcodeList` from an initially empty index has none of the ten header labels
("Barcodes:", "Expansion Hubs:", "Control Hubs:", "Robot Batteries:", "Chargers:",
"Controllers:", "Phones:", "Drills:", "Motors:", "Servos:") as a key, while every cell that
is none of these labels and whose text does not occur again further down the column
receives the row number of its own position in the full column (header cells are skipped
but still counted). -/
theorem createBarcodeList_headers_skipped (srv : Service) (spreadsheetId : String)
    (w : World) (vr : ValueRange) (hget : (srv.get spreadsheetId "H:H").1 = some vr)
    (hrows : ∀ row ∈ vr.Values, row ≠ []) :
    ∃ idx w1, createBarcodeList srv spreadsheetId [] w = Except.ok (idx, w1) ∧
      (∀ h ∈ ["Barcodes:", "Expansion Hubs:", "Control Hubs:", "Robot Batteries:",
          "Chargers:", "Controllers:", "Phones:", "Drills:", "Motors:", "Servos:"],
        mapLookup idx h = none) ∧
      (∀ (j : Nat) (c : String), (firstCells vr.Values)[j]? = some c →
        c ∉ ["Barcodes:", "Expansion Hubs:", "Control Hubs:", "Robot Batteries:",
          "Chargers:", "Controllers:", "Phones:", "Drills:", "Motors:", "Servos:"] →
        (∀ k, j < k → (firstCells vr.Values)[k]? ≠ some c) →
        mapLookup idx c = some (Itoa ((j : Int) + 1))) := by
  refine ⟨_, _, createBarcodeList_ok srv spreadsheetId [] w vr hget hrows, ?_, ?_⟩
  · intro h hh
    rw [mapLookup_eq_none_iff]
    intro hk
    exact (inequalStrings_iff h).mp (scanColumn_key _ h hk).2 hh
  · intro j c hj hc hlast
    exact scanColumn_last _ c j hj ((inequalStrings_iff c).mpr hc) hlast

/-- An instance of the amended C5: a column with two headers between the barcodes. -/
theorem createBarcodeList_headers_skipped_witness :
    ∃ idx w1, createBarcodeList (gridService sampleGrid) "sheet" [] World.start
        = Except.ok (idx, w1) ∧
      (∀ h ∈ ["Barcodes:", "Expansion Hubs:", "Control Hubs:", "Robot Batteries:",
          "Chargers:", "Controllers:", "Phones:", "Drills:", "Motors:", "Servos:"],
        mapLookup idx h = none) ∧
      (∀ (j : Nat) (c : String), (firstCells sampleGrid)[j]? = some c →
        c ∉ ["Barcodes:", "Expansion Hubs:", "Control Hubs:", "Robot Batteries:",
          "Chargers:", "Controllers:", "Phones:", "Drills:", "Motors:", "Servos:"] →
        (∀ k, j < k → (firstCells sampleGrid)[k]? ≠ some c) →
        mapLookup idx c = some (Itoa ((j : Int) + 1))) :=
  createBarcodeList_headers_skipped (gridService sampleGrid) "sheet" World.start
    { Values := sampleGrid } rfl (by decide)

/-- Every cell that is none of the ten labels is given the row number of its own position
when its row is reached: the index the loop has built once it has passed row `j` maps the
text of that row to `j + 1`, whatever stands further down. -/
theorem createBarcodeLoop_assigns_own_row (Values : List (List String))
    (hrows : ∀ row ∈ Values, row ≠ []) (j : Nat) (c : String)
    (hj : (firstCells Values)[j]? = some c)
    (hc : c ∉ ["Barcodes:", "Expansion Hubs:", "Control Hubs:", "Robot Batteries:",
      "Chargers:", "Controllers:", "Phones:", "Drills:", "Motors:", "Servos:"]) :
    ∃ mid, createBarcodeLoop (Values.take (j + 1)) 0 [] = Except.ok mid ∧
      mapLookup mid c = some (Itoa ((j : Int) + 1)) := by
  refine ⟨scanColumn (firstCells (Values.take (j + 1))) 0 [], ?_, ?_⟩
  · exact createBarcodeLoop_eq _ 0 [] (fun row hr => hrows row (List.mem_of_mem_take hr))
  · have hjl : j < (firstCells Values).length := by
      by_contra hge
      rw [List.getElem?_eq_none (by omega)] at hj; cases hj
    have htake : firstCells (Values.take (j + 1)) = (firstCells Values).take (j + 1) := by
      simp [firstCells, List.map_take]
    rw [htake]
    refine scanColumn_last _ c j ?_ ((inequalStrings_iff c).mpr hc) ?_
    · rw [List.getElem?_take_of_lt (by omega)]; exact hj
    · intro k hk
      rw [List.getElem?_take_eq_none (by omega)]
      simp

/-! ## C6: stored row identifiers are positive -/

/-- C6: for every column (of at most `maxInt` rows, as any Go slice) and every key present
in the index `createBarcodeList` builds from it on an initially empty index, the stored row
identifier parses with `strconv.Atoi`, without error, to an integer >= 1; so `scanErrors`
never reports invalid-barcode for that key, and with any non-empty name it returns no
error. -/
theorem createBarcodeList_rows_positive (srv : Service) (spreadsheetId : String)
    (w : World) (vr : ValueRange) (hget : (srv.get spreadsheetId "H:H").1 = some vr)
    (hrows : ∀ row ∈ vr.Values, row ≠ [])
    (hlen : (vr.Values.length : Int) ≤ maxInt) :
    ∃ idx w1, createBarcodeList srv spreadsheetId [] w = Except.ok (idx, w1) ∧
      ∀ k v, mapLookup idx k = some v →
        (∃ n, Atoi v = (n, none) ∧ 1 ≤ n) ∧
        (∀ name, (scanErrors idx k name).2 ≠ some "invalid barcode: please scan again") ∧
        (∀ name, name ≠ "" → scanErrors idx k name = (-1, none)) := by
  refine ⟨_, _, createBarcodeList_ok srv spreadsheetId [] w vr hget hrows, ?_⟩
  intro k v hkv
  obtain ⟨j, hj, hv⟩ := scanColumn_value _ k v hkv
  have hjl : j < vr.Values.length := by
    by_contra hge
    rw [List.getElem?_eq_none (by simp [firstCells]; omega)] at hj; cases hj
  have hcast : ((j : Int) + 1) = ((j + 1 : Nat) : Int) := by push_cast; rfl
  have hbound : ((j + 1 : Nat) : Int) ≤ maxInt := by
    have : ((j + 1 : Nat) : Int) ≤ (vr.Values.length : Int) := by exact_mod_cast hjl
    omega
  have hA : Atoi v = (((j + 1 : Nat) : Int), none) := by
    rw [hv, hcast]; exact Atoi_Itoa (j + 1) hbound
  have hidx : mapIndex (scanColumn (firstCells vr.Values) 0 []) k = v := by
    simp [mapIndex, hkv]
  have hx : ¬ (((j + 1 : Nat) : Int) < 1) := by omega
  refine ⟨⟨_, hA, by omega⟩, ?_, ?_⟩
  · intro name
    by_cases hn : len name < 1
    · simp only [scanErrors, if_pos hn]; decide
    · simp only [scanErrors, if_neg hn, hidx, hA, if_neg hx]; decide
  · intro name hname
    have hn : ¬ len name < 1 := fun h => hname ((len_lt_one_iff name).mp h)
    simp only [scanErrors, if_neg hn, hidx, hA, if_neg hx]

/-- An instance of C6: the sample column. -/
theorem createBarcodeList_rows_positive_witness :
    ∃ idx w1, createBarcodeList (gridService sampleGrid) "sheet" [] World.start
        = Except.ok (idx, w1) ∧
      ∀ k v, mapLookup idx k = some v →
        (∃ n, Atoi v = (n, none) ∧ 1 ≤ n) ∧
        (∀ name, (scanErrors idx k name).2 ≠ some "invalid barcode: please scan again") ∧
        (∀ name, name ≠ "" → scanErrors idx k name = (-1, none)) :=
  createBarcodeList_rows_positive (gridService sampleGrid) "sheet" World.start
    { Values := sampleGrid } rfl (by decide) (by decide)

/-! ## C8: the read of the column fails -/

/-- C8, what the code does: when the read of `H:H` returns an error and no result,
`createBarcodeList` prints the error and then reads `checkedIn.Values` through the nil
result, so it panics instead of returning with an empty index. -/
theorem createBarcodeList_read_failure (srv : Service) (spreadsheetId : String)
    (BARCODES : Index) (w : World) (hget : (srv.get spreadsheetId "H:H").1 = none) :
    createBarcodeList srv spreadsheetId BARCODES w = Except.error nilDereference := by
  simp only [createBarcodeList, hget]

/-- An instance of C8: a service whose reads fail. -/
theorem createBarcodeList_read_failure_witness :
    createBarcodeList failingService "sheet" [] World.start = Except.error nilDereference :=
  createBarcodeList_read_failure failingService "sheet" [] World.start rfl

/-! ## C9: the empty barcode -/

/-- C9 as stated fails: a column with a cell whose text is empty makes the empty string a
key of the built index, and `scanErrors` then accepts the empty barcode with the name
"Alice". -/
theorem scanErrors_empty_barcode_counterexample :
    ∃ idx w1, createBarcodeList (gridService [["BC100"], [""]]) "sheet" [] World.start
        = Except.ok (idx, w1) ∧
      scanErrors idx "" "Alice" = (-1, none) ∧
      scanErrors idx "" "Alice" ≠ (0, some "invalid barcode: please scan again") :=
  ⟨[("BC100", "1"), ("", "2")], { calls := [Call.get "sheet" "H:H"], response := "" },
    by rfl, by decide, by decide⟩

/-- C9, amended: for every column that has no cell whose text is empty, the empty string
is not a key of the index `createBarcodeList` builds from an initially empty index, and
`scanErrors` with the empty barcode returns the invalid-barcode error for every non-empty
name. -/
theorem scanErrors_empty_barcode (srv : Service) (spreadsheetId : String)
    (w : World) (vr : ValueRange) (hget : (srv.get spreadsheetId "H:H").1 = some vr)
    (hrows : ∀ row ∈ vr.Values, row ≠ [])
    (hnonempty : "" ∉ firstCells vr.Values) :
    ∃ idx w1, createBarcodeList srv spreadsheetId [] w = Except.ok (idx, w1) ∧
      mapLookup idx "" = none ∧
      ∀ name, name ≠ "" →
        scanErrors idx "" name = (0, some "invalid barcode: please scan again") := by
  refine ⟨_, _, createBarcodeList_ok srv spreadsheetId [] w vr hget hrows, ?_⟩
  have habs : mapLookup (scanColumn (firstCells vr.Values) 0 []) "" = none := by
    rw [mapLookup_eq_none_iff]
    intro hk
    exact hnonempty (scanColumn_key _ "" hk).1
  refine ⟨habs, ?_⟩
  intro name hname
  have hn : ¬ len name < 1 := fun h => hname ((len_lt_one_iff name).mp h)
  have hx : (Atoi (mapIndex (scanColumn (firstCells vr.Values) 0 []) "")).1 < 1 := by
    rw [Atoi_mapIndex_absent _ _ habs]; decide
  simp only [scanErrors, if_neg hn, if_pos hx]

/-- An instance of the amended C9: the sample column has no empty cell. -/
theorem scanErrors_empty_barcode_witness :
    ∃ idx w1, createBarcodeList (gridService sampleGrid) "sheet" [] World.start
        = Except.ok (idx, w1) ∧
      mapLookup idx "" = none ∧
      ∀ name, name ≠ "" →
        scanErrors idx "" name = (0, some "invalid barcode: please scan again") :=
  scanErrors_empty_barcode (gridService sampleGrid) "sheet" World.start
    { Values := sampleGrid } rfl (by decide) (by decide)

/-! ## C10: duplicate barcodes -/

/-- C10: for every column in which a non-header text occurs at more than one position
(here `i < j`, with `j` its last position), the index built by `createBarcodeList` maps
that text to the decimal string of `j + 1`, and holds a single entry for that text. -/
theorem createBarcodeList_last_row_wins (srv : Service) (spreadsheetId : String)
    (w : World) (vr : ValueRange) (hget : (srv.get spreadsheetId "H:H").1 = some vr)
    (hrows : ∀ row ∈ vr.Values, row ≠ [])
    (t : String) (i j : Nat) (_hij : i < j)
    (_hi : (firstCells vr.Values)[i]? = some t) (hj : (firstCells vr.Values)[j]? = some t)
    (hlast : ∀ k, j < k → (firstCells vr.Values)[k]? ≠ some t)
    (ht : inequalStrings t = true) :
    ∃ idx w1, createBarcodeList srv spreadsheetId [] w = Except.ok (idx, w1) ∧
      mapLookup idx t = some (Itoa ((j : Int) + 1)) ∧
      (mapKeys idx).count t = 1 := by
  refine ⟨_, _, createBarcodeList_ok srv spreadsheetId [] w vr hget hrows, ?_, ?_⟩
  · exact scanColumn_last _ t j hj ht hlast
  · exact List.count_eq_one_of_mem (scanColumn_nodup _)
      (scanColumn_mem_key _ t (List.getElem?_mem hj) ht)

/-- An instance of C10: "BC100" stands in rows 2 and 5 of the sample column and is
mapped to "5". -/
theorem createBarcodeList_last_row_wins_witness :
    ∃ idx w1, createBarcodeList (gridService sampleGrid) "sheet" [] World.start
        = Except.ok (idx, w1) ∧
      mapLookup idx "BC100" = some (Itoa (((4 : Nat) : Int) + 1)) ∧
      (mapKeys idx).count "BC100" = 1 :=
  createBarcodeList_last_row_wins (gridService sampleGrid) "sheet" World.start
    { Values := sampleGrid } rfl (by decide) "BC100" 1 4 (by decide) (by decide) (by decide)
    (by
      intro k hk
      have : (firstCells sampleGrid)[k]? = none :=
        List.getElem?_eq_none (by simp [firstCells, sampleGrid]; omega)
      rw [this]; simp)
    (by decide)

/-! ## C7: the handler on an unknown barcode -/

/-- Text without a `%` is written as it is. -/
theorem doPrintf_of_noPercent (cs : List Char) (fuel : Nat) (h : '%' ∉ cs)
    (hf : cs.length < fuel) : doPrintf fuel cs = cs := by
  induction cs generalizing fuel with
  | nil =>
    cases fuel with
    | zero => omega
    | succ fuel => rfl
  | cons c cs ih =>
    cases fuel with
    | zero => omega
    | succ fuel =>
      simp only [List.mem_cons, not_or] at h
      have hc : ¬ c = '%' := fun hh => h.1 hh.symm
      simp only [List.length_cons] at hf
      simp only [doPrintf, if_neg hc, ih fuel h.2 (by omega)]

theorem Sprintf0_of_noPercent (format : String) (h : '%' ∉ format.data) :
    Sprintf0 format = format := by
  simp only [Sprintf0, doPrintf_of_noPercent format.data _ h (Nat.lt_succ_self _)]

/-- The template of the form has no `%` besides its six verbs. -/
theorem template_noPercent :
    '%' ∉ formHead.data ∧ '%' ∉ formAfterBarcode.data ∧ '%' ∉ formAfterUser.data ∧
    '%' ∉ formAfterTeam.data ∧ '%' ∉ formAfterStatus.data ∧ '%' ∉ formAfterError.data ∧
    '%' ∉ formTail.data := by
  decide!

/-- A form built from texts without a `%` has no `%`. -/
theorem buildForm_noPercent (results errmsg barcode user team status : String)
    (h1 : '%' ∉ results.data) (h2 : '%' ∉ errmsg.data) (h3 : '%' ∉ barcode.data)
    (h4 : '%' ∉ user.data) (h5 : '%' ∉ team.data) (h6 : '%' ∉ status.data) :
    '%' ∉ (buildForm results errmsg barcode user team status).data := by
  obtain ⟨t1, t2, t3, t4, t5, t6, t7⟩ := template_noPercent
  have hq : '%' ∉ "value=\"".data := by decide
  have hq2 : '%' ∉ "\"".data := by decide
  have hb : '%' ∉ "placeholder=\"Barcode\"".data := by decide
  have hn : '%' ∉ "placeholder=\"Name\"".data := by decide
  have hbc : '%' ∉ (if 0 < len barcode then "value=\"" ++ barcode ++ "\""
      else "placeholder=\"Barcode\"").data := by
    split
    · simp only [String.data_append, List.mem_append, not_or]; exact ⟨⟨hq, h3⟩, hq2⟩
    · exact hb
  have hus : '%' ∉ (if 0 < len user then "value=\"" ++ user ++ "\""
      else "placeholder=\"Name\"").data := by
    split
    · simp only [String.data_append, List.mem_append, not_or]; exact ⟨⟨hq, h4⟩, hq2⟩
    · exact hn
  simp only [buildForm, String.data_append, List.mem_append, not_or]
  exact ⟨⟨⟨⟨⟨⟨⟨⟨⟨⟨⟨⟨t1, hbc⟩, t2⟩, hus⟩, t3⟩, h5⟩, t4⟩, h6⟩, t5⟩, h2⟩, t6⟩, h1⟩, t7⟩

/-- The handler on a barcode absent from the index and a non-empty name: no update is
issued; the status is read for the emptied barcode; when that read gives a cell, the handler
passes to `Fprintf`, as the format, the form built with empty results, the invalid-barcode
message, the barcode cleared, the submitted name and team, and the status `checkStatus`
gives for the barcode "". -/
theorem scanhandler_unknown_barcode (srv : Service) (BARCODES : Index)
    (spreadsheetId : String) (request : Request) (w : World) (cell : String)
    (more : List String) (rest : List (List String))
    (hparse : request.parseFormErr = none)
    (habsent : mapLookup BARCODES request.barcode = none) (hname : request.user ≠ "")
    (hread : (srv.get spreadsheetId ("C" ++ mapIndex BARCODES "")).1
      = some { Values := (cell :: more) :: rest }) :
    checkStatus srv BARCODES spreadsheetId "" w =
      Except.ok (if cell = "Available" then "Checked In" else "Checked Out",
        { w with calls := w.calls ++ [Call.get spreadsheetId ("C" ++ mapIndex BARCODES "")] }) ∧
    scanhandler srv BARCODES spreadsheetId request w =
      Except.ok
        { calls := w.calls ++ [Call.get spreadsheetId ("C" ++ mapIndex BARCODES "")]
          response := w.response ++ Sprintf0 (buildForm "" "invalid barcode: please scan again"
            "" request.user request.team
            (if cell = "Available" then "Checked In" else "Checked Out")) } := by
  have hcs : checkStatus srv BARCODES spreadsheetId "" w =
      Except.ok (if cell = "Available" then "Checked In" else "Checked Out",
        { w with calls := w.calls ++ [Call.get spreadsheetId ("C" ++ mapIndex BARCODES "")] }) := by
    simp only [checkStatus, checkAvailable, findCellFromTable, hread]
    split <;> rfl
  refine ⟨hcs, ?_⟩
  have hn : ¬ len request.user < 1 := fun h => hname ((len_lt_one_iff _).mp h)
  have hx : (Atoi (mapIndex BARCODES request.barcode)).1 < 1 := by
    rw [Atoi_mapIndex_absent _ _ habsent]; decide
  have hse : scanErrors BARCODES request.barcode request.user
      = (0, some "invalid barcode: please scan again") := by
    simp only [scanErrors, if_neg hn, if_pos hx]
  simp only [scanhandler, hparse, hse, if_true, hcs, Fprintf]

/-- When the status read for the emptied barcode returns no result, the handler panics and
writes nothing. -/
theorem scanhandler_unknown_barcode_read_failure (srv : Service) (BARCODES : Index)
    (spreadsheetId : String) (request : Request) (w : World)
    (hparse : request.parseFormErr = none)
    (habsent : mapLookup BARCODES request.barcode = none) (hname : request.user ≠ "")
    (hread : (srv.get spreadsheetId ("C" ++ mapIndex BARCODES "")).1 = none) :
    scanhandler srv BARCODES spreadsheetId request w = Except.error nilDereference := by
  have hcs : checkStatus srv BARCODES spreadsheetId "" w = Except.error nilDereference := by
    simp only [checkStatus, checkAvailable, findCellFromTable, hread]
  have hn : ¬ len request.user < 1 := fun h => hname ((len_lt_one_iff _).mp h)
  have hx : (Atoi (mapIndex BARCODES request.barcode)).1 < 1 := by
    rw [Atoi_mapIndex_absent _ _ habsent]; decide
  have hse : scanErrors BARCODES request.barcode request.user
      = (0, some "invalid barcode: please scan again") := by
    simp only [scanErrors, if_neg hn, if_pos hx]
  simp only [scanhandler, hparse, hse, if_true, hcs]

/-- On a barcode absent from the index, with a non-empty name, and name and team without a
`%`, the response is the form itself, as C7 describes it. -/
theorem scanhandler_unknown_barcode_plain (srv : Service) (BARCODES : Index)
    (spreadsheetId : String) (request : Request) (w : World) (cell : String)
    (more : List String) (rest : List (List String))
    (hparse : request.parseFormErr = none)
    (habsent : mapLookup BARCODES request.barcode = none) (hname : request.user ≠ "")
    (hread : (srv.get spreadsheetId ("C" ++ mapIndex BARCODES "")).1
      = some { Values := (cell :: more) :: rest })
    (huser : '%' ∉ request.user.data) (hteam : '%' ∉ request.team.data) :
    scanhandler srv BARCODES spreadsheetId request w =
      Except.ok
        { calls := w.calls ++ [Call.get spreadsheetId ("C" ++ mapIndex BARCODES "")]
          response := w.response ++ buildForm "" "invalid barcode: please scan again"
            "" request.user request.team
            (if cell = "Available" then "Checked In" else "Checked Out") } := by
  rw [(scanhandler_unknown_barcode srv BARCODES spreadsheetId request w cell more rest hparse
    habsent hname hread).2]
  have hst : '%' ∉ (if cell = "Available" then "Checked In" else "Checked Out").data := by
    split <;> decide
  rw [Sprintf0_of_noPercent _ (buildForm_noPercent _ _ _ _ _ _ (by decide) (by decide)
    (by decide) huser hteam hst)]

/-- An instance of the handler on an unknown barcode: the name "Alice". -/
theorem scanhandler_unknown_barcode_plain_witness :
    scanhandler (constService "Available") [("BC100", "5")] "sheet"
        { parseFormErr := none, barcode := "BC999", user := "Alice", team := "Black",
          status := "checkOut" } World.start =
      Except.ok
        { calls := [] ++ [Call.get "sheet" ("C" ++ mapIndex [("BC100", "5")] "")]
          response := "" ++ buildForm "" "invalid barcode: please scan again"
            "" "Alice" "Black" (if "Available" = "Available" then "Checked In" else "Checked Out") } :=
  scanhandler_unknown_barcode_plain (constService "Available") [("BC100", "5")] "sheet"
    { parseFormErr := none, barcode := "BC999", user := "Alice", team := "Black",
      status := "checkOut" } World.start "Available" [] [] rfl (by decide) (by decide) rfl
    (by decide) (by decide)

/-- C7, what the code does on a name with a `%`: for the index that holds "BC100", the
absent barcode "BC999", the name "100%" and the team "Black", no update is issued and the
status is read for the barcode "", but the form is handed to `Fprintf` as its format, so
the `%` of the name and the quote after it are written as `%!"(MISSING)`: the response is
not the form built with the submitted name. -/
theorem scanhandler_percent_in_name :
    scanhandler (constService "Available") [("BC100", "5")] "sheet"
        { parseFormErr := none, barcode := "BC999", user := "100%", team := "Black",
          status := "checkOut" } World.start =
      Except.ok { calls := [Call.get "sheet" "C"],
                  response := formHead ++ "placeholder=\"Barcode\"" ++ formAfterBarcode
                    ++ "value=\"100%!\"(MISSING)" ++ formAfterUser ++ "Black" ++ formAfterTeam
                    ++ "Checked In" ++ formAfterStatus ++ "invalid barcode: please scan again"
                    ++ formAfterError ++ formTail } ∧
    buildForm "" "invalid barcode: please scan again" "" "100%" "Black" "Checked In" =
      formHead ++ "placeholder=\"Barcode\"" ++ formAfterBarcode
        ++ "value=\"100%\"" ++ formAfterUser ++ "Black" ++ formAfterTeam
        ++ "Checked In" ++ formAfterStatus ++ "invalid barcode: please scan again"
        ++ formAfterError ++ formTail ∧
    scanhandler (constService "Available") [("BC100", "5")] "sheet"
        { parseFormErr := none, barcode := "BC999", user := "100%", team := "Black",
          status := "checkOut" } World.start ≠
      Except.ok { calls := [Call.get "sheet" "C"],
                  response := buildForm "" "invalid barcode: please scan again" "" "100%"
                    "Black" "Checked In" } := by
  decide!

end Inventory
